import Mathlib

/-!
# Verification of the PDF overlay-translation pipeline (`src/main.py`)

Shallow embedding of the block-translation-and-overlay pipeline of
`src/main.py`.  The program is orchestration glue over three external
capabilities (PyMuPDF document access, a Google-translate client wrapped by
`st.cache_data` memoization, and the Streamlit UI).  The embedding models:

* the memoized translation function `_translate` (lines 38-41) as explicit
  state passing over a cache keyed by the raw `(text, src, tgt)` triple,
  with the external provider given as a deterministic oracle
  `prov : String → String → String → Except Unit PyText` (a fallible call;
  `st.cache_data` does not cache exceptions, so a raising call stores
  nothing);
* the per-block pipeline (lines 87-148) as a total function producing the
  list of overlay elements actually placed on the page and a trace of
  events (each library invocation with its outcome).  Whether a given
  library call raises is environment data carried on the block
  (`rectFails`, `htmlFails`, `tb1Fails`, `tb2Fails`), since the real
  failures come from the external rendering engine;
* the run handler (lines 49-161) from the point where the document has been
  opened: page-range resolution (lines 64-69), overlay-layer creation
  (line 72), the page loop (lines 78-151), and export/close
  (lines 153-161).  `ez_save` is the one unguarded fallible call on that
  tail, modelled by the environment flag `ezSaveFails`; `doc.close()`
  (line 161) runs only when export did not raise, since the code has no
  `try/finally`.

Python's `str.strip()` is modelled by `pyStrip` (dropping surrounding
whitespace; Lean's notion covers space, tab, CR, LF).  Python float
parameters (`min_font_size`, `line_height`) are pass-through styling values
that no claim constrains; the draw events record page, bounding box, text
payload and optional-content tag.
-/

/-- A PDF rectangle: the first four entries of a PyMuPDF block tuple.
Coordinates are modelled as integers (their exact values are opaque to the
pipeline, which only passes them through). -/
structure Rect where
  x0 : Int
  y0 : Int
  x1 : Int
  y1 : Int
deriving DecidableEq, Repr

/-- A Python value that the pipeline inspects with `isinstance(·, str)`:
either an actual string or some non-string value. -/
inductive PyText where
  | str (s : String)
  | nonStr
deriving DecidableEq, Repr

/-- A text block as consumed by the loop at line 87: `block[:4]` is the
bounding box, `block[4]` (when `len(block) > 4`) the extracted text.
`field4 = none` models a tuple of length ≤ 4, in which case line 89
substitutes `""`.  The four `Bool` fields are environment data: whether the
corresponding external draw call raises for this block (`tb1Fails` is the
`insert_textbox` inside the `try` branch, line 112; `tb2Fails` the one
inside the `except` branch, line 137). -/
structure Block where
  bbox : Rect
  field4 : Option PyText
  rectFails : Bool
  htmlFails : Bool
  tb1Fails : Bool
  tb2Fails : Bool
deriving DecidableEq, Repr

/-- Line 89: `text = block[4] if len(block) > 4 else ""`. -/
def blockText (b : Block) : PyText :=
  b.field4.getD (.str "")

/-- Python `str.strip()`: the character list of the string with leading and
trailing whitespace removed.  (Python strips a slightly larger set of
Unicode whitespace characters than `Char.isWhitespace`; for the guards the
pipeline uses only emptiness of the result matters.) -/
def pyStrip (s : String) : List Char :=
  ((s.data.dropWhile Char.isWhitespace).reverse.dropWhile
    Char.isWhitespace).reverse

/-- Line 40: `source=src if src.strip() else "auto"`. -/
def normSrc (src : String) : String :=
  if pyStrip src = [] then "auto" else src

/-- Cache key of the memoized `_translate`: the raw argument triple
`(text, src, tgt)` (`st.cache_data` keys on the arguments as passed, before
the `auto` normalization inside the body). -/
abbrev TransKey := String × String × String

/-- State of the process-wide `st.cache_data` cache, plus a counter of
actual provider (network) invocations, used to express "the provider is
invoked at most once". -/
structure TransState where
  cache : List (TransKey × PyText)
  provCalls : Nat
deriving DecidableEq, Repr

/-- Trace events: each external invocation made by the pipeline, with its
outcome.  `provCall` is an actual translation-provider (network) call
inside `_translate`; `transCall` is an invocation of the memoized
`_translate` at line 96 (annotated with the page index of the enclosing
loop iteration); the three `*Try` events are the PyMuPDF draw calls
(`draw_rect` line 105, `insert_htmlbox` line 134, `insert_textbox`
lines 112/137), `ok = false` meaning the call raised.  The text recorded on
a placement event is the translated string being placed (for
`insert_htmlbox` the actual argument is `textToHtml` of it). -/
inductive Ev where
  | provCall (text src tgt : String)
  | transCall (pno : Nat) (text src tgt : String)
  | rectTry (pno : Nat) (bbox : Rect) (ok : Bool)
  | htmlTry (pno : Nat) (bbox : Rect) (text : String) (ok : Bool)
  | tboxTry (pno : Nat) (bbox : Rect) (text : String) (ok : Bool)
deriving DecidableEq, Repr

/-- Associative lookup in the memoization cache (a Python dict keyed by
the argument triple). -/
def lookupKey (k : TransKey) :
    List (TransKey × PyText) → Option PyText
  | [] => none
  | (k1, v) :: rest => if k = k1 then some v else lookupKey k rest

/-- Lines 38-41 — the memoized translation function.  On a cache hit the
stored value is returned with no provider call; on a miss the provider is
invoked (one `provCall` event, counter bumped) and the result is cached
only on success, since `st.cache_data` does not cache exceptions. -/
def _translate (prov : String → String → String → Except Unit PyText)
    (ts : TransState) (text src tgt : String) :
    Except Unit PyText × TransState × List Ev :=
  match lookupKey (text, src, tgt) ts.cache with
  | some v => (.ok v, ts, [])
  | none =>
    match prov text (normSrc src) tgt with
    | .ok v =>
      (.ok v,
       { cache := ((text, src, tgt), v) :: ts.cache,
         provCalls := ts.provCalls + 1 },
       [.provCall text src tgt])
    | .error e =>
      (.error e,
       { cache := ts.cache, provCalls := ts.provCalls + 1 },
       [.provCall text src tgt])

/-- The unmemoized translation: what a single direct provider call
returns.  Used to state that the memoized function refines it. -/
def translateDirect (prov : String → String → String → Except Unit PyText)
    (text src tgt : String) : Except Unit PyText :=
  prov text (normSrc src) tgt

/-- Cache consistency: every cached entry is what the provider returns for
its key.  Holds for the empty cache and is preserved by `_translate`. -/
def cacheOK (prov : String → String → String → Except Unit PyText)
    (ts : TransState) : Prop :=
  ∀ k v, (k, v) ∈ ts.cache → prov k.1 (normSrc k.2.1) k.2.2 = .ok v

/-- Lines 95-98 — the translate step with its `except` fallback: on any
translation failure the original text is substituted. -/
def fallbackTranslate (prov : String → String → String → Except Unit PyText)
    (ts : TransState) (text src tgt : String) :
    PyText × TransState × List Ev :=
  match (_translate prov ts text src tgt).1 with
  | .ok v => (v, (_translate prov ts text src tgt).2)
  | .error _ => (.str text, (_translate prov ts text src tgt).2)

/-- Lines 43-46 — `text_to_html`: HTML-escape, turn newlines into `<br>`,
wrap in the styled `div`. -/
def htmlEscapeChar (c : Char) : String :=
  if c = '&' then "&amp;"
  else if c = '<' then "&lt;"
  else if c = '>' then "&gt;"
  else if c = '"' then "&quot;"
  else if c = '\'' then "&#x27;"
  else if c = '\n' then "<br>"
  else String.singleton c

def textToHtml (s : String) : String :=
  "<div class='id-text'>"
    ++ String.join (s.data.map htmlEscapeChar)
    ++ "</div>"

/-- An overlay element actually placed on a page, tagged with the
optional-content group (`oc=ocg`) it was drawn under: the white cover
rectangle (line 105), a styled-markup box (line 134, carrying the html
string built by `text_to_html`), or a plain text box (lines 112/137). -/
inductive Ov where
  | rect (bbox : Rect) (oc : Nat)
  | html (bbox : Rect) (htmlText : String) (oc : Nat)
  | tbox (bbox : Rect) (text : String) (oc : Nat)
deriving DecidableEq, Repr

/-- The optional-content tag an overlay element was drawn with. -/
def Ov.ocOf : Ov → Nat
  | .rect _ oc => oc
  | .html _ _ oc => oc
  | .tbox _ _ oc => oc

/-- The run configuration relevant to the pipeline: language codes and the
`use_textbox` toggle (line 21). -/
structure Cfg where
  sourceLang : String
  targetLang : String
  useTextbox : Bool
deriving DecidableEq, Repr

/-- Lines 110-148 — placement of the translated text with the fallback:
the `try` branch runs `insert_textbox` (`use_textbox` mode) or
`insert_htmlbox`; if it raises, the `except` branch attempts
`insert_textbox` once more, and a failure there is swallowed (`pass`).
Returns the overlay elements that were successfully placed and the trace
of attempts. -/
def placeText (cfg : Cfg) (ocg : Nat) (pno : Nat) (b : Block)
    (translated : String) : List Ov × List Ev :=
  if cfg.useTextbox then
    if b.tb1Fails then
      if b.tb2Fails then
        ([], [.tboxTry pno b.bbox translated false,
              .tboxTry pno b.bbox translated false])
      else
        ([.tbox b.bbox translated ocg],
         [.tboxTry pno b.bbox translated false,
          .tboxTry pno b.bbox translated true])
    else
      ([.tbox b.bbox translated ocg], [.tboxTry pno b.bbox translated true])
  else
    if b.htmlFails then
      if b.tb2Fails then
        ([], [.htmlTry pno b.bbox translated false,
              .tboxTry pno b.bbox translated false])
      else
        ([.tbox b.bbox translated ocg],
         [.htmlTry pno b.bbox translated false,
          .tboxTry pno b.bbox translated true])
    else
      ([.html b.bbox (textToHtml translated) ocg],
       [.htmlTry pno b.bbox translated true])

/-- Lines 87-148 — the per-block pipeline: skip when the extracted text is
not a string or whitespace-only (line 91); translate with fallback to the
original text (lines 95-98); skip when the result is not a string
(line 100); paint the white cover rectangle, skipping the block if that
raises (lines 104-107); then place the text (lines 110-148). -/
def processBlock (prov : String → String → String → Except Unit PyText)
    (cfg : Cfg) (ocg : Nat) (pno : Nat) (b : Block) (ts : TransState) :
    List Ov × TransState × List Ev :=
  match blockText b with
  | .nonStr => ([], ts, [])
  | .str text =>
    if pyStrip text = [] then ([], ts, [])
    else
      match (fallbackTranslate prov ts text cfg.sourceLang cfg.targetLang).1 with
      | .nonStr =>
        ([],
         (fallbackTranslate prov ts text cfg.sourceLang cfg.targetLang).2.1,
         Ev.transCall pno text cfg.sourceLang cfg.targetLang ::
           (fallbackTranslate prov ts text cfg.sourceLang cfg.targetLang).2.2)
      | .str translated =>
        if b.rectFails then
          ([],
           (fallbackTranslate prov ts text cfg.sourceLang cfg.targetLang).2.1,
           Ev.transCall pno text cfg.sourceLang cfg.targetLang ::
             ((fallbackTranslate prov ts text cfg.sourceLang cfg.targetLang).2.2 ++
              [.rectTry pno b.bbox false]))
        else
          (Ov.rect b.bbox ocg :: (placeText cfg ocg pno b translated).1,
           (fallbackTranslate prov ts text cfg.sourceLang cfg.targetLang).2.1,
           Ev.transCall pno text cfg.sourceLang cfg.targetLang ::
             ((fallbackTranslate prov ts text cfg.sourceLang cfg.targetLang).2.2 ++
              [.rectTry pno b.bbox true] ++ (placeText cfg ocg pno b translated).2))

/-- The inner `for block in blocks` loop (lines 87-148), threading the
translation cache left to right and concatenating overlays and events. -/
def processBlocks (prov : String → String → String → Except Unit PyText)
    (cfg : Cfg) (ocg : Nat) (pno : Nat) :
    List Block → TransState → List Ov × TransState × List Ev
  | [], ts => ([], ts, [])
  | b :: rest, ts =>
    ((processBlock prov cfg ocg pno b ts).1 ++
       (processBlocks prov cfg ocg pno rest (processBlock prov cfg ocg pno b ts).2.1).1,
     (processBlocks prov cfg ocg pno rest (processBlock prov cfg ocg pno b ts).2.1).2.1,
     (processBlock prov cfg ocg pno b ts).2.2 ++
       (processBlocks prov cfg ocg pno rest (processBlock prov cfg ocg pno b ts).2.1).2.2)

instance {ε α : Type} [DecidableEq ε] [DecidableEq α] :
    DecidableEq (Except ε α) := fun a b =>
  match a, b with
  | .ok x, .ok y =>
    if h : x = y then .isTrue (by rw [h]) else .isFalse (by simp [h])
  | .error x, .error y =>
    if h : x = y then .isTrue (by rw [h]) else .isFalse (by simp [h])
  | .ok _, .error _ => .isFalse (by simp)
  | .error _, .ok _ => .isFalse (by simp)

/-- A page: its original content (opaque, never modified by the pipeline),
the outcome of `page.get_text("blocks", ...)` for it (the environment
decides whether extraction raises), and the overlay elements drawn onto
it. -/
structure Page where
  content : Nat
  getTextResult : Except Unit (List Block)
  overlays : List Ov
deriving DecidableEq, Repr

/-- Lines 82-85 — `blocks = page.get_text(...)`, with a raising call
replaced by the empty block list. -/
def blocksOf : Except Unit (List Block) → List Block
  | .ok bs => bs
  | .error _ => []

/-- Lines 79-151 — one iteration of the page loop: extract blocks,
substituting `[]` when `get_text` raises (lines 82-85), then run the block
loop and append the placed overlays to the page. -/
def processPage (prov : String → String → String → Except Unit PyText)
    (cfg : Cfg) (ocg : Nat) (pno : Nat) (pg : Page) (ts : TransState) :
    Page × TransState × List Ev :=
  ({ pg with overlays := pg.overlays ++
      (processBlocks prov cfg ocg pno (blocksOf pg.getTextResult) ts).1 },
   (processBlocks prov cfg ocg pno (blocksOf pg.getTextResult) ts).2.1,
   (processBlocks prov cfg ocg pno (blocksOf pg.getTextResult) ts).2.2)

/-- The page loop `for pno in range(first_idx, last_idx + 1)` (line 78),
expressed as a walk over the page list carrying the current index: pages
with `first ≤ pno ≤ last` are processed in order, the others left as they
are (the Python loop simply never touches them). -/
def processPages (prov : String → String → String → Except Unit PyText)
    (cfg : Cfg) (ocg : Nat) (first last : Nat) :
    List Page → Nat → TransState → List Page × TransState × List Ev
  | [], _, ts => ([], ts, [])
  | pg :: rest, pno, ts =>
    if first ≤ pno ∧ pno ≤ last then
      ((processPage prov cfg ocg pno pg ts).1 ::
         (processPages prov cfg ocg first last rest (pno + 1)
           (processPage prov cfg ocg pno pg ts).2.1).1,
       (processPages prov cfg ocg first last rest (pno + 1)
         (processPage prov cfg ocg pno pg ts).2.1).2.1,
       (processPage prov cfg ocg pno pg ts).2.2 ++
         (processPages prov cfg ocg first last rest (pno + 1)
           (processPage prov cfg ocg pno pg ts).2.1).2.2)
    else
      (pg :: (processPages prov cfg ocg first last rest (pno + 1) ts).1,
       (processPages prov cfg ocg first last rest (pno + 1) ts).2.1,
       (processPages prov cfg ocg first last rest (pno + 1) ts).2.2)

/-- The document as the pipeline sees it after `fitz.open` succeeded:
its pages, its optional-content groups (an `add_ocg` appends one and
returns its index), and the environment flag saying whether the unguarded
`doc.ez_save` call (line 160) raises for this document. -/
structure Doc where
  pages : List Page
  ocgs : List String
  ezSaveFails : Bool
deriving DecidableEq, Repr

/-- Line 65: `first_idx = max(0, int(start_page) - 1)` (0-based). -/
def firstIdx (startPage : Nat) : Int :=
  max 0 ((startPage : Int) - 1)

/-- Line 66: `last_idx = total_pages - 1 if end_page == 0 else
min(total_pages - 1, end_page - 1)` (0-based, may be `-1`). -/
def lastIdx (total endPage : Nat) : Int :=
  if endPage = 0 then (total : Int) - 1
  else min ((total : Int) - 1) ((endPage : Int) - 1)

/-- The resolved inclusive end page in 1-based terms, as the spec phrases
it: `0` means the last page, larger values are clamped to the last page. -/
def resolvedEnd (total endPage : Nat) : Nat :=
  if endPage = 0 then total else min total endPage

/-- Outcome of one run of the handler, from the point after `fitz.open`:
whether the "Invalid page range." error was shown (and `st.stop` raised),
the optional-content group created (if any), the final in-memory state of
the document object, the event trace, the exported snapshot (`ez_save`
result) when export succeeded, and whether `doc.close()` was reached. -/
structure RunOut where
  errorShown : Bool
  ocgCreated : Option Nat
  finalDoc : Doc
  events : List Ev
  saved : Option Doc
  closed : Bool
deriving DecidableEq, Repr

/-- Lines 62-161 — the run handler after the document has been opened:
resolve the page range and stop with an error if it is empty (lines 64-69,
note the document is not closed on this path); create the one overlay
layer (line 72); run the page loop (lines 78-151); `subset_fonts` is
try/except-swallowed and does not alter the modelled state (lines
154-157); `ez_save` (line 160) is unguarded, so if it raises the handler
aborts before `doc.close()` (line 161). -/
def runLoop (prov : String → String → String → Except Unit PyText)
    (cfg : Cfg) (startPage endPage : Nat) (ts0 : TransState) (doc : Doc) :
    List Page × TransState × List Ev :=
  processPages prov cfg doc.ocgs.length (firstIdx startPage).toNat
    (lastIdx doc.pages.length endPage).toNat doc.pages 0 ts0

/-- The document object after `add_ocg` (line 72) and the page loop. -/
def runDoc (prov : String → String → String → Except Unit PyText)
    (cfg : Cfg) (startPage endPage : Nat) (ts0 : TransState) (doc : Doc) :
    Doc :=
  { pages := (runLoop prov cfg startPage endPage ts0 doc).1,
    ocgs := doc.ocgs ++ ["Translated(" ++ cfg.targetLang ++ ")"],
    ezSaveFails := doc.ezSaveFails }

def runPipeline (prov : String → String → String → Except Unit PyText)
    (cfg : Cfg) (startPage endPage : Nat) (ts0 : TransState) (doc : Doc) :
    RunOut :=
  if firstIdx startPage > lastIdx doc.pages.length endPage then
    { errorShown := true, ocgCreated := none, finalDoc := doc,
      events := [], saved := none, closed := false }
  else
    if doc.ezSaveFails then
      { errorShown := false, ocgCreated := some doc.ocgs.length,
        finalDoc := runDoc prov cfg startPage endPage ts0 doc,
        events := (runLoop prov cfg startPage endPage ts0 doc).2.2,
        saved := none, closed := false }
    else
      { errorShown := false, ocgCreated := some doc.ocgs.length,
        finalDoc := runDoc prov cfg startPage endPage ts0 doc,
        events := (runLoop prov cfg startPage endPage ts0 doc).2.2,
        saved := some (runDoc prov cfg startPage endPage ts0 doc),
        closed := true }

/-! ## Trace observations -/

/-- The page index an event is attributed to (`none` for provider calls,
which happen inside `_translate` and carry no page context). -/
def Ev.pageOf : Ev → Option Nat
  | .provCall _ _ _ => none
  | .transCall p _ _ _ => some p
  | .rectTry p _ _ => some p
  | .htmlTry p _ _ _ => some p
  | .tboxTry p _ _ _ => some p

/-- The text payload of a text-placement attempt (`insert_htmlbox` /
`insert_textbox`), `none` for other events. -/
def Ev.placedText : Ev → Option String
  | .htmlTry _ _ t _ => some t
  | .tboxTry _ _ t _ => some t
  | _ => none

/-- Number of provider (network) invocations in a trace. -/
def countProv (evs : List Ev) : Nat :=
  (evs.filter fun e => match e with | .provCall _ _ _ => true | _ => false).length

/-- Number of memoized-`_translate` invocations in a trace. -/
def countTrans (evs : List Ev) : Nat :=
  (evs.filter fun e => match e with | .transCall _ _ _ _ => true | _ => false).length

/-- Number of `draw_rect` attempts in a trace. -/
def countRect (evs : List Ev) : Nat :=
  (evs.filter fun e => match e with | .rectTry _ _ _ => true | _ => false).length

/-- Number of `insert_htmlbox` attempts in a trace. -/
def countHtml (evs : List Ev) : Nat :=
  (evs.filter fun e => match e with | .htmlTry _ _ _ _ => true | _ => false).length

/-- Number of `insert_textbox` attempts in a trace. -/
def countTbox (evs : List Ev) : Nat :=
  (evs.filter fun e => match e with | .tboxTry _ _ _ _ => true | _ => false).length

/-! ## Concrete fixtures, used to instantiate the theorems -/

/-- A provider whose every call fails (e.g. a rate-limited network). -/
def provDown : String → String → String → Except Unit PyText :=
  fun _ _ _ => .error ()

/-- A provider that always succeeds, decorating the input text. -/
def provUp : String → String → String → Except Unit PyText :=
  fun t _ _ => .ok (.str ("T:" ++ t))

/-- The empty translation state: cold cache, no provider calls yet. -/
def tsEmpty : TransState := { cache := [], provCalls := 0 }

/-- Default configuration: auto-detect source, Spanish target, styled
markup mode. -/
def cfgHtml : Cfg := { sourceLang := "auto", targetLang := "es", useTextbox := false }

/-- Configuration with the `use_textbox` fallback toggle on. -/
def cfgTbox : Cfg := { sourceLang := "auto", targetLang := "es", useTextbox := true }

/-- A well-behaved block containing the text `"hola"`. -/
def blkPlain : Block :=
  { bbox := ⟨0, 0, 100, 20⟩, field4 := some (.str "hola"),
    rectFails := false, htmlFails := false, tb1Fails := false, tb2Fails := false }

/-- A block whose first `insert_textbox` call raises but whose retry
succeeds. -/
def blkTboxFlaky : Block :=
  { bbox := ⟨0, 0, 100, 20⟩, field4 := some (.str "hola"),
    rectFails := false, htmlFails := false, tb1Fails := true, tb2Fails := false }

/-- A block whose `insert_htmlbox` call raises and whose fallback
`insert_textbox` raises as well. -/
def blkBothFail : Block :=
  { bbox := ⟨0, 0, 100, 20⟩, field4 := some (.str "hola"),
    rectFails := false, htmlFails := true, tb2Fails := true, tb1Fails := false }

/-- A one-page document whose page carries `blkPlain`. -/
def docOne : Doc :=
  { pages := [{ content := 17, getTextResult := .ok [blkPlain], overlays := [] }],
    ocgs := [], ezSaveFails := false }

/-- The same one-page document, but `ez_save` raises for it. -/
def docSaveFail : Doc :=
  { pages := [{ content := 17, getTextResult := .ok [blkPlain], overlays := [] }],
    ocgs := [], ezSaveFails := true }

/-- A three-page document with blocks only on page 2 (index 1). -/
def docThree : Doc :=
  { pages :=
      [{ content := 1, getTextResult := .ok [], overlays := [] },
       { content := 2, getTextResult := .ok [blkPlain], overlays := [] },
       { content := 3, getTextResult := .ok [], overlays := [] }],
    ocgs := [], ezSaveFails := false }

/-- A page whose `get_text` call raises. -/
def pgBadExtract : Page :=
  { content := 99, getTextResult := .error (), overlays := [] }

/-- A block whose extracted text is whitespace-only. -/
def blkBlank : Block :=
  { bbox := ⟨0, 0, 100, 20⟩, field4 := some (.str " \n\t "),
    rectFails := false, htmlFails := false, tb1Fails := false, tb2Fails := false }

/-! ## General lemmas -/

theorem ne_empty_of_pyStrip_ne_nil {s : String} (h : pyStrip s ≠ []) :
    s ≠ "" := by
  intro he
  exact h (by rw [he]; rfl)

/-- `_translate` emits no event on a hit and exactly one provider call on a
miss; in particular its events carry no page attribution and no placed
text. -/
theorem translate_events (prov : String → String → String → Except Unit PyText)
    (ts : TransState) (t s g : String) :
    (_translate prov ts t s g).2.2 = [] ∨
      (_translate prov ts t s g).2.2 = [.provCall t s g] := by
  unfold _translate
  cases lookupKey (t, s, g) ts.cache with
  | some v => exact Or.inl rfl
  | none =>
    cases prov t (normSrc s) g with
    | ok v => exact Or.inr rfl
    | error e => exact Or.inr rfl

theorem translate_events_obs (prov : String → String → String → Except Unit PyText)
    (ts : TransState) (t s g : String) :
    ∀ e ∈ (_translate prov ts t s g).2.2,
      Ev.pageOf e = none ∧ Ev.placedText e = none := by
  intro e he
  rcases translate_events prov ts t s g with h | h <;> rw [h] at he
  · cases he
  · simp only [List.mem_singleton] at he
    subst he
    exact ⟨rfl, rfl⟩

/-- Every placement attempt records the page of the enclosing loop
iteration and places exactly the translated string. -/
theorem placeText_events (cfg : Cfg) (ocg pno : Nat) (b : Block) (t : String) :
    ∀ e ∈ (placeText cfg ocg pno b t).2,
      Ev.pageOf e = some pno ∧ ∀ u, Ev.placedText e = some u → u = t := by
  intro e he
  unfold placeText at he
  split_ifs at he <;> fin_cases he <;>
    exact ⟨rfl, fun u hu => (Option.some.inj hu).symm⟩

/-- Every overlay element placed by `placeText` is tagged with the layer
it was given. -/
theorem placeText_ovs (cfg : Cfg) (ocg pno : Nat) (b : Block) (t : String) :
    ∀ ov ∈ (placeText cfg ocg pno b t).1, Ov.ocOf ov = ocg := by
  intro ov hov
  unfold placeText at hov
  split_ifs at hov <;> fin_cases hov <;> rfl

/-- The state and trace component of the translate-with-fallback step are
those of the memoized call. -/
theorem fallbackTranslate_state (prov : String → String → String → Except Unit PyText)
    (ts : TransState) (t s g : String) :
    (fallbackTranslate prov ts t s g).2 = (_translate prov ts t s g).2 := by
  unfold fallbackTranslate
  cases (_translate prov ts t s g).1 <;> rfl

/-- When the memoized translation raises, the fallback substitutes the
original text (line 98). -/
theorem fallbackTranslate_error (prov : String → String → String → Except Unit PyText)
    (ts : TransState) (t s g : String)
    (h : (_translate prov ts t s g).1 = .error ()) :
    fallbackTranslate prov ts t s g = (.str t, (_translate prov ts t s g).2) := by
  unfold fallbackTranslate
  rw [h]

/-- When the memoized translation returns, the fallback is not taken. -/
theorem fallbackTranslate_ok (prov : String → String → String → Except Unit PyText)
    (ts : TransState) (t s g : String) (v : PyText)
    (h : (_translate prov ts t s g).1 = .ok v) :
    fallbackTranslate prov ts t s g = (v, (_translate prov ts t s g).2) := by
  unfold fallbackTranslate
  rw [h]

/-- Every event a block emits is attributed to the block's page (or, for
provider calls, to no page). -/
theorem processBlock_events (prov : String → String → String → Except Unit PyText)
    (cfg : Cfg) (ocg pno : Nat) (b : Block) (ts : TransState) :
    ∀ e ∈ (processBlock prov cfg ocg pno b ts).2.2,
      Ev.pageOf e = none ∨ Ev.pageOf e = some pno := by
  intro e he
  unfold processBlock at he
  split at he
  · cases he
  · rename_i text _
    split at he
    · cases he
    · split at he
      · simp only [List.mem_cons] at he
        rcases he with rfl | he
        · exact Or.inr rfl
        · rcases translate_events_obs prov ts text cfg.sourceLang cfg.targetLang e
            (by rw [← fallbackTranslate_state]; exact he) with ⟨h1, _⟩
          exact Or.inl h1
      · split at he
        · simp only [List.append_assoc, List.cons_append, List.mem_cons,
            List.mem_append, List.mem_singleton, List.not_mem_nil, or_false,
            false_or] at he
          rcases he with rfl | he | rfl
          · exact Or.inr rfl
          · rcases translate_events_obs prov ts text cfg.sourceLang cfg.targetLang e
              (by rw [← fallbackTranslate_state]; exact he) with ⟨h1, _⟩
            exact Or.inl h1
          · exact Or.inr rfl
        · simp only [List.append_assoc, List.cons_append, List.mem_cons,
            List.mem_append, List.mem_singleton, List.not_mem_nil, or_false,
            false_or] at he
          rcases he with rfl | he | rfl | he
          · exact Or.inr rfl
          · rcases translate_events_obs prov ts text cfg.sourceLang cfg.targetLang e
              (by rw [← fallbackTranslate_state]; exact he) with ⟨h1, _⟩
            exact Or.inl h1
          · exact Or.inr rfl
          · exact Or.inr (placeText_events cfg ocg pno b _ e he).1

/-- Every overlay element a block places carries the run's layer tag. -/
theorem processBlock_ovs (prov : String → String → String → Except Unit PyText)
    (cfg : Cfg) (ocg pno : Nat) (b : Block) (ts : TransState) :
    ∀ ov ∈ (processBlock prov cfg ocg pno b ts).1, Ov.ocOf ov = ocg := by
  intro ov hov
  unfold processBlock at hov
  split at hov
  · cases hov
  · split at hov
    · cases hov
    · split at hov
      · cases hov
      · split at hov
        · cases hov
        · simp only [List.mem_cons] at hov
          rcases hov with rfl | hov
          · rfl
          · exact placeText_ovs cfg ocg pno _ _ ov hov

theorem processBlocks_events (prov : String → String → String → Except Unit PyText)
    (cfg : Cfg) (ocg pno : Nat) :
    ∀ (bs : List Block) (ts : TransState),
      ∀ e ∈ (processBlocks prov cfg ocg pno bs ts).2.2,
        Ev.pageOf e = none ∨ Ev.pageOf e = some pno := by
  intro bs
  induction bs with
  | nil => intro ts e he; cases he
  | cons b rest ih =>
    intro ts e he
    rw [processBlocks, List.mem_append] at he
    rcases he with he | he
    · exact processBlock_events prov cfg ocg pno b ts e he
    · exact ih _ e he

theorem processBlocks_ovs (prov : String → String → String → Except Unit PyText)
    (cfg : Cfg) (ocg pno : Nat) :
    ∀ (bs : List Block) (ts : TransState),
      ∀ ov ∈ (processBlocks prov cfg ocg pno bs ts).1, Ov.ocOf ov = ocg := by
  intro bs
  induction bs with
  | nil => intro ts ov hov; cases hov
  | cons b rest ih =>
    intro ts ov hov
    rw [processBlocks, List.mem_append] at hov
    rcases hov with hov | hov
    · exact processBlock_ovs prov cfg ocg pno b ts ov hov
    · exact ih _ ov hov

/-- A processed page keeps its original content and extraction behaviour;
only overlay elements (all tagged with the run's layer) are appended. -/
theorem processPage_shape (prov : String → String → String → Except Unit PyText)
    (cfg : Cfg) (ocg pno : Nat) (pg : Page) (ts : TransState) :
    (processPage prov cfg ocg pno pg ts).1.content = pg.content ∧
    (processPage prov cfg ocg pno pg ts).1.getTextResult = pg.getTextResult ∧
    ∃ nw, (processPage prov cfg ocg pno pg ts).1.overlays = pg.overlays ++ nw ∧
      ∀ ov ∈ nw, Ov.ocOf ov = ocg :=
  ⟨rfl, rfl, _, rfl, processBlocks_ovs prov cfg ocg pno _ ts⟩

theorem processPages_length (prov : String → String → String → Except Unit PyText)
    (cfg : Cfg) (ocg f l : Nat) :
    ∀ (pgs : List Page) (pno : Nat) (ts : TransState),
      (processPages prov cfg ocg f l pgs pno ts).1.length = pgs.length := by
  intro pgs
  induction pgs with
  | nil => intro pno ts; rfl
  | cons pg rest ih =>
    intro pno ts
    rw [processPages]
    split_ifs <;> simp [ih]

/-- Pages whose index falls outside the processed range are returned
untouched. -/
theorem processPages_get_out (prov : String → String → String → Except Unit PyText)
    (cfg : Cfg) (ocg f l : Nat) :
    ∀ (pgs : List Page) (pno : Nat) (ts : TransState) (i : Nat),
      ¬(f ≤ pno + i ∧ pno + i ≤ l) →
      (processPages prov cfg ocg f l pgs pno ts).1[i]? = pgs[i]? := by
  intro pgs
  induction pgs with
  | nil => intro pno ts i _; rfl
  | cons pg rest ih =>
    intro pno ts i hi
    rw [processPages]
    split_ifs with h
    · cases i with
      | zero => exact absurd (by simpa using h) (by simpa using hi)
      | succ j =>
        simp only [List.getElem?_cons_succ]
        exact ih (pno + 1) _ j (by omega)
    · cases i with
      | zero => simp only [List.getElem?_cons_zero]
      | succ j =>
        simp only [List.getElem?_cons_succ]
        exact ih (pno + 1) _ j (by omega)

/-- Every page-attributed event of the loop lies inside the processed
range. -/
theorem processPages_events (prov : String → String → String → Except Unit PyText)
    (cfg : Cfg) (ocg f l : Nat) :
    ∀ (pgs : List Page) (pno : Nat) (ts : TransState),
      ∀ e ∈ (processPages prov cfg ocg f l pgs pno ts).2.2,
        ∀ p, Ev.pageOf e = some p → f ≤ p ∧ p ≤ l := by
  intro pgs
  induction pgs with
  | nil => intro pno ts e he; cases he
  | cons pg rest ih =>
    intro pno ts e he p hp
    rw [processPages] at he
    split_ifs at he with h
    · simp only [List.mem_append] at he
      rcases he with he | he
      · rcases processBlocks_events prov cfg ocg pno _ ts e he with h0 | h0
        · rw [h0] at hp; cases hp
        · rw [h0] at hp
          cases hp
          exact ⟨h.1, h.2⟩
      · exact ih (pno + 1) _ e he p hp
    · exact ih (pno + 1) _ e he p hp

/-- The loop preserves each page's content and extraction behaviour,
position by position. -/
theorem processPages_content (prov : String → String → String → Except Unit PyText)
    (cfg : Cfg) (ocg f l : Nat) :
    ∀ (pgs : List Page) (pno : Nat) (ts : TransState) (i : Nat),
      ((processPages prov cfg ocg f l pgs pno ts).1[i]?).map Page.content =
        (pgs[i]?).map Page.content ∧
      ((processPages prov cfg ocg f l pgs pno ts).1[i]?).map Page.getTextResult =
        (pgs[i]?).map Page.getTextResult := by
  intro pgs
  induction pgs with
  | nil => intro pno ts i; exact ⟨rfl, rfl⟩
  | cons pg rest ih =>
    intro pno ts i
    rw [processPages]
    split_ifs with h
    · cases i with
      | zero =>
        refine ⟨?_, ?_⟩ <;>
          simp [processPage_shape prov cfg ocg pno pg ts]
      | succ j =>
        simp only [List.getElem?_cons_succ]
        exact ih (pno + 1) _ j
    · cases i with
      | zero => exact ⟨by simp only [List.getElem?_cons_zero], by simp only [List.getElem?_cons_zero]⟩
      | succ j =>
        simp only [List.getElem?_cons_succ]
        exact ih (pno + 1) _ j

/-- Every page in the loop's output arises from an input page by appending
overlay elements all tagged with the run's layer. -/
theorem processPages_mem (prov : String → String → String → Except Unit PyText)
    (cfg : Cfg) (ocg f l : Nat) :
    ∀ (pgs : List Page) (pno : Nat) (ts : TransState),
      ∀ pg1 ∈ (processPages prov cfg ocg f l pgs pno ts).1,
        ∃ pg ∈ pgs, ∃ nw, pg1.overlays = pg.overlays ++ nw ∧
          ∀ ov ∈ nw, Ov.ocOf ov = ocg := by
  intro pgs
  induction pgs with
  | nil => intro pno ts pg1 h1; cases h1
  | cons pg rest ih =>
    intro pno ts pg1 h1
    rw [processPages] at h1
    split_ifs at h1 with h
    · simp only [List.mem_cons] at h1
      rcases h1 with rfl | h1
      · rcases processPage_shape prov cfg ocg pno pg ts with ⟨_, _, nw, hnw, hall⟩
        exact ⟨pg, List.mem_cons_self pg rest, nw, hnw, hall⟩
      · rcases ih (pno + 1) _ pg1 h1 with ⟨pg0, hpg0, nw, hnw, hall⟩
        exact ⟨pg0, List.mem_cons_of_mem pg hpg0, nw, hnw, hall⟩
    · simp only [List.mem_cons] at h1
      rcases h1 with rfl | h1
      · exact ⟨pg1, List.mem_cons_self pg1 rest, [], (List.append_nil _).symm,
          fun ov hov => absurd hov (List.not_mem_nil ov)⟩
      · rcases ih (pno + 1) _ pg1 h1 with ⟨pg0, hpg0, nw, hnw, hall⟩
        exact ⟨pg0, List.mem_cons_of_mem pg hpg0, nw, hnw, hall⟩

/-- A successful `lookupKey` hit is a cache entry. -/
theorem lookupKey_mem :
    ∀ {c : List (TransKey × PyText)} {k : TransKey} {v : PyText},
      lookupKey k c = some v → (k, v) ∈ c := by
  intro c
  induction c with
  | nil => intro k v h; cases h
  | cons kv rest ih =>
    intro k v h
    obtain ⟨k1, v1⟩ := kv
    unfold lookupKey at h
    split_ifs at h with he
    · cases h
      subst he
      exact List.mem_cons_self _ _
    · exact List.mem_cons_of_mem _ (ih h)

theorem countProv_append (l1 l2 : List Ev) :
    countProv (l1 ++ l2) = countProv l1 + countProv l2 := by
  simp [countProv, List.filter_append]

theorem countTrans_append (l1 l2 : List Ev) :
    countTrans (l1 ++ l2) = countTrans l1 + countTrans l2 := by
  simp [countTrans, List.filter_append]

theorem countRect_append (l1 l2 : List Ev) :
    countRect (l1 ++ l2) = countRect l1 + countRect l2 := by
  simp [countRect, List.filter_append]

theorem countHtml_append (l1 l2 : List Ev) :
    countHtml (l1 ++ l2) = countHtml l1 + countHtml l2 := by
  simp [countHtml, List.filter_append]

theorem countTbox_append (l1 l2 : List Ev) :
    countTbox (l1 ++ l2) = countTbox l1 + countTbox l2 := by
  simp [countTbox, List.filter_append]

/-- Counts of the events of one memoized-translation call: at most one
provider invocation and no draw attempt at all. -/
theorem counts_translate (prov : String → String → String → Except Unit PyText)
    (ts : TransState) (t s g : String) :
    countProv (_translate prov ts t s g).2.2 ≤ 1 ∧
    countTrans (_translate prov ts t s g).2.2 = 0 ∧
    countRect (_translate prov ts t s g).2.2 = 0 ∧
    countHtml (_translate prov ts t s g).2.2 = 0 ∧
    countTbox (_translate prov ts t s g).2.2 = 0 := by
  rcases translate_events prov ts t s g with h | h <;> rw [h] <;>
    exact ⟨by simp [countProv], rfl, rfl, rfl, rfl⟩

/-- In styled-markup mode a block attempts `insert_htmlbox` at most once
and `insert_textbox` at most once (the latter only as the fallback). -/
theorem counts_placeText_styled (cfg : Cfg) (ocg pno : Nat) (b : Block)
    (t : String) (hmode : cfg.useTextbox = false) :
    countProv (placeText cfg ocg pno b t).2 = 0 ∧
    countTrans (placeText cfg ocg pno b t).2 = 0 ∧
    countRect (placeText cfg ocg pno b t).2 = 0 ∧
    countHtml (placeText cfg ocg pno b t).2 ≤ 1 ∧
    countTbox (placeText cfg ocg pno b t).2 ≤ 1 := by
  unfold placeText
  rw [hmode]
  simp only [Bool.false_eq_true, if_false]
  split_ifs <;>
    exact ⟨rfl, rfl, rfl, by simp [countHtml], by simp [countTbox]⟩

/-! ## Claims -/

/-- C2: a block whose extracted text is not a string, or is empty or
whitespace-only, causes no draw operation at all — no cover rectangle, no
text placement, no translation call, and no state change (lines 87-92). -/
theorem blank_or_nonstring_block_skipped
    (prov : String → String → String → Except Unit PyText)
    (cfg : Cfg) (ocg pno : Nat) (b : Block) (ts : TransState)
    (h : blockText b = .nonStr ∨ ∃ s, blockText b = .str s ∧ pyStrip s = []) :
    processBlock prov cfg ocg pno b ts = ([], ts, []) := by
  unfold processBlock
  rcases h with h | ⟨s, hs, hstrip⟩
  · split
    · rfl
    · rename_i text heq
      rw [h] at heq
      cases heq
  · split
    · rfl
    · rename_i text heq
      rw [hs] at heq
      cases heq
      rw [if_pos hstrip]

theorem blank_or_nonstring_block_skipped_witness :
    processBlock provUp cfgHtml 0 0 blkBlank tsEmpty = ([], tsEmpty, []) :=
  blank_or_nonstring_block_skipped provUp cfgHtml 0 0 blkBlank tsEmpty
    (Or.inr ⟨" \n\t ", by decide, by decide⟩)

/-- C10: when per-page text extraction raises, the page is treated as
having no blocks: it is returned unmodified, with no events (so no draws
and no translation calls), the cache untouched, and the loop continues
with the following pages (lines 82-85). -/
theorem extraction_failure_page_untouched
    (prov : String → String → String → Except Unit PyText)
    (cfg : Cfg) (ocg f l pno : Nat) (pg : Page) (ts : TransState)
    (rest : List Page)
    (h : pg.getTextResult = .error ())
    (hin : f ≤ pno ∧ pno ≤ l) :
    processPage prov cfg ocg pno pg ts = (pg, ts, []) ∧
    processPages prov cfg ocg f l (pg :: rest) pno ts =
      (pg :: (processPages prov cfg ocg f l rest (pno + 1) ts).1,
       (processPages prov cfg ocg f l rest (pno + 1) ts).2.1,
       (processPages prov cfg ocg f l rest (pno + 1) ts).2.2) := by
  have h1 : processPage prov cfg ocg pno pg ts = (pg, ts, []) := by
    unfold processPage
    have hb : blocksOf pg.getTextResult = [] := by rw [h]; rfl
    rw [hb]
    show ({ pg with overlays := pg.overlays ++ [] }, ts, []) = (pg, ts, [])
    rw [List.append_nil]
  refine ⟨h1, ?_⟩
  rw [processPages, if_pos hin, h1]
  rfl

theorem extraction_failure_page_untouched_witness :
    processPage provUp cfgHtml 0 0 pgBadExtract tsEmpty =
      (pgBadExtract, tsEmpty, []) ∧
    processPages provUp cfgHtml 0 0 0 [pgBadExtract] 0 tsEmpty =
      (pgBadExtract :: (processPages provUp cfgHtml 0 0 0 [] 1 tsEmpty).1,
       (processPages provUp cfgHtml 0 0 0 [] 1 tsEmpty).2.1,
       (processPages provUp cfgHtml 0 0 0 [] 1 tsEmpty).2.2) :=
  extraction_failure_page_untouched provUp cfgHtml 0 0 0 0 pgBadExtract tsEmpty []
    (by decide) ⟨Nat.le_refl 0, Nat.le_refl 0⟩

/-- C5: when the 1-based start page exceeds the resolved end page (end 0
meaning the last page, larger ends clamped to it), the run shows the
"Invalid page range." error and stops before any mutation: no overlay
layer is created, no event happens, the document object is unchanged and
nothing is exported (lines 64-69). -/
theorem invalid_range_no_mutation
    (prov : String → String → String → Except Unit PyText)
    (cfg : Cfg) (startPage endPage : Nat) (ts0 : TransState) (doc : Doc)
    (h1 : 1 ≤ startPage)
    (h2 : resolvedEnd doc.pages.length endPage < startPage) :
    runPipeline prov cfg startPage endPage ts0 doc =
      { errorShown := true, ocgCreated := none, finalDoc := doc,
        events := [], saved := none, closed := false } := by
  have hgt : firstIdx startPage > lastIdx doc.pages.length endPage := by
    unfold firstIdx lastIdx
    unfold resolvedEnd at h2
    by_cases he : endPage = 0
    · rw [if_pos he] at h2 ⊢
      omega
    · rw [if_neg he] at h2 ⊢
      omega
  unfold runPipeline
  rw [if_pos hgt]

theorem invalid_range_no_mutation_witness :
    runPipeline provUp cfgHtml 3 0 tsEmpty docOne =
      { errorShown := true, ocgCreated := none, finalDoc := docOne,
        events := [], saved := none, closed := false } :=
  invalid_range_no_mutation provUp cfgHtml 3 0 tsEmpty docOne
    (by decide) (by decide)

/-- C9 (amended): the document object is closed exactly when the run
passes range validation and the unguarded `ez_save` call does not raise;
with no `try/finally` in the handler, an export exception skips
`doc.close()` (lines 153-161). -/
theorem document_closed_iff_export_succeeds
    (prov : String → String → String → Except Unit PyText)
    (cfg : Cfg) (startPage endPage : Nat) (ts0 : TransState) (doc : Doc) :
    (runPipeline prov cfg startPage endPage ts0 doc).closed = true ↔
      ((runPipeline prov cfg startPage endPage ts0 doc).errorShown = false ∧
       doc.ezSaveFails = false) := by
  unfold runPipeline
  split_ifs with hr hz <;> simp_all

/-- C9 counterexample: a run that passes input validation and processes
its pages, yet whose document is never closed because `ez_save` raises —
the resource leaks despite the run having "opened the document and gotten
past input validation". -/
theorem document_close_skipped_on_export_failure :
    (runPipeline provUp cfgHtml 1 0 tsEmpty docSaveFail).errorShown = false ∧
    (runPipeline provUp cfgHtml 1 0 tsEmpty docSaveFail).events ≠ [] ∧
    (runPipeline provUp cfgHtml 1 0 tsEmpty docSaveFail).closed = false := by
  decide

/-- C7 counterexample: in user-selected plain text-box mode, when the
`insert_textbox` call in the `try` branch raises, the `except` branch
re-invokes `insert_textbox` with identical arguments for the same block —
the failed operation is re-attempted (lines 110-121 and 135-148). -/
theorem textbox_mode_retries_failed_textbox :
    countTbox (processBlock provDown cfgTbox 0 0 blkTboxFlaky tsEmpty).2.2 = 2 ∧
    (processBlock provDown cfgTbox 0 0 blkTboxFlaky tsEmpty).2.2 =
      [.transCall 0 "hola" "auto" "es",
       .provCall "hola" "auto" "es",
       .rectTry 0 ⟨0, 0, 100, 20⟩ true,
       .tboxTry 0 ⟨0, 0, 100, 20⟩ "hola" false,
       .tboxTry 0 ⟨0, 0, 100, 20⟩ "hola" true] := by
  decide

/-- In styled-markup mode the placement step attempts exactly one of three
concrete call sequences. -/
theorem placeText_styled_cases (cfg : Cfg) (ocg pno : Nat) (b : Block)
    (t : String) (hmode : cfg.useTextbox = false) :
    (placeText cfg ocg pno b t).2 = [.htmlTry pno b.bbox t true] ∨
    (placeText cfg ocg pno b t).2 =
      [.htmlTry pno b.bbox t false, .tboxTry pno b.bbox t true] ∨
    (placeText cfg ocg pno b t).2 =
      [.htmlTry pno b.bbox t false, .tboxTry pno b.bbox t false] := by
  unfold placeText
  rw [hmode]
  simp only [Bool.false_eq_true, if_false]
  split_ifs <;> simp

/-- C7 (amended): in styled-markup mode no operation is ever re-attempted
for a block — at most one memoized-translate call, one provider call, one
`draw_rect`, one `insert_htmlbox` and one `insert_textbox` attempt (the
text box only as the distinct fallback operation); only the user-selected
plain text-box mode re-attempts a failed `insert_textbox` once. -/
theorem styled_mode_never_retries
    (prov : String → String → String → Except Unit PyText)
    (cfg : Cfg) (ocg pno : Nat) (b : Block) (ts : TransState)
    (hmode : cfg.useTextbox = false) :
    countProv (processBlock prov cfg ocg pno b ts).2.2 ≤ 1 ∧
    countTrans (processBlock prov cfg ocg pno b ts).2.2 ≤ 1 ∧
    countRect (processBlock prov cfg ocg pno b ts).2.2 ≤ 1 ∧
    countHtml (processBlock prov cfg ocg pno b ts).2.2 ≤ 1 ∧
    countTbox (processBlock prov cfg ocg pno b ts).2.2 ≤ 1 := by
  unfold processBlock
  split
  · exact ⟨by simp [countProv], by simp [countTrans], by simp [countRect],
      by simp [countHtml], by simp [countTbox]⟩
  · rename_i text heq
    split
    · exact ⟨by simp [countProv], by simp [countTrans], by simp [countRect],
        by simp [countHtml], by simp [countTbox]⟩
    · have hfb2 : (fallbackTranslate prov ts text cfg.sourceLang cfg.targetLang).2.2 =
          (_translate prov ts text cfg.sourceLang cfg.targetLang).2.2 :=
        congrArg Prod.snd
          (fallbackTranslate_state prov ts text cfg.sourceLang cfg.targetLang)
      split
      · rw [hfb2]
        rcases translate_events prov ts text cfg.sourceLang cfg.targetLang with
          hT | hT <;> rw [hT] <;>
          exact ⟨by simp [countProv], by simp [countTrans], by simp [countRect],
            by simp [countHtml], by simp [countTbox]⟩
      · rename_i translated htr
        split
        · rw [hfb2]
          rcases translate_events prov ts text cfg.sourceLang cfg.targetLang with
            hT | hT <;> rw [hT] <;>
            exact ⟨by simp [countProv], by simp [countTrans], by simp [countRect],
              by simp [countHtml], by simp [countTbox]⟩
        · rw [hfb2]
          rcases translate_events prov ts text cfg.sourceLang cfg.targetLang with
            hT | hT <;> rw [hT] <;>
            rcases placeText_styled_cases cfg ocg pno b translated hmode with
              hP | hP | hP <;> rw [hP] <;>
            exact ⟨by simp [countProv], by simp [countTrans], by simp [countRect],
              by simp [countHtml], by simp [countTbox]⟩

theorem styled_mode_never_retries_witness :
    countProv (processBlock provUp cfgHtml 0 0 blkBothFail tsEmpty).2.2 ≤ 1 ∧
    countTrans (processBlock provUp cfgHtml 0 0 blkBothFail tsEmpty).2.2 ≤ 1 ∧
    countRect (processBlock provUp cfgHtml 0 0 blkBothFail tsEmpty).2.2 ≤ 1 ∧
    countHtml (processBlock provUp cfgHtml 0 0 blkBothFail tsEmpty).2.2 ≤ 1 ∧
    countTbox (processBlock provUp cfgHtml 0 0 blkBothFail tsEmpty).2.2 ≤ 1 :=
  styled_mode_never_retries provUp cfgHtml 0 0 blkBothFail tsEmpty rfl

/-- Cache hit: the memoized call returns the stored value, unchanged
state, no provider call. -/
theorem translate_hit (prov : String → String → String → Except Unit PyText)
    (ts : TransState) (t s g : String) (v : PyText)
    (hl : lookupKey (t, s, g) ts.cache = some v) :
    _translate prov ts t s g = (.ok v, ts, []) := by
  unfold _translate
  rw [hl]

/-- Cache miss with a successful provider call: the value is cached and
the provider-call counter bumped. -/
theorem translate_miss_ok (prov : String → String → String → Except Unit PyText)
    (ts : TransState) (t s g : String) (v : PyText)
    (hl : lookupKey (t, s, g) ts.cache = none)
    (hp : prov t (normSrc s) g = .ok v) :
    _translate prov ts t s g =
      (.ok v,
       { cache := ((t, s, g), v) :: ts.cache, provCalls := ts.provCalls + 1 },
       [.provCall t s g]) := by
  unfold _translate
  rw [hl, hp]

/-- Cache miss with a raising provider call: nothing is cached. -/
theorem translate_miss_err (prov : String → String → String → Except Unit PyText)
    (ts : TransState) (t s g : String)
    (hl : lookupKey (t, s, g) ts.cache = none)
    (hp : prov t (normSrc s) g = .error ()) :
    _translate prov ts t s g =
      (.error (),
       { cache := ts.cache, provCalls := ts.provCalls + 1 },
       [.provCall t s g]) := by
  unfold _translate
  rw [hl, hp]

/-- C1: if the memoized translation call raises for a block whose
extracted text is the string `s`, then every text placement attempted for
that block places exactly `s` — the original extracted text — and `s` is
not the empty string; the failure is absorbed (lines 94-101) and the rest
of the pipeline proceeds as usual. -/
theorem translation_failure_draws_original
    (prov : String → String → String → Except Unit PyText)
    (cfg : Cfg) (ocg pno : Nat) (b : Block) (ts : TransState) (s : String)
    (hs : blockText b = .str s)
    (herr : (_translate prov ts s cfg.sourceLang cfg.targetLang).1 = .error ()) :
    ∀ e ∈ (processBlock prov cfg ocg pno b ts).2.2, ∀ t,
      Ev.placedText e = some t → t = s ∧ t ≠ "" := by
  intro e he t hpt
  unfold processBlock at he
  split at he
  · cases he
  · rename_i text heq
    rw [hs] at heq
    cases heq
    by_cases hstrip : pyStrip s = []
    · rw [if_pos hstrip] at he
      cases he
    · rw [if_neg hstrip] at he
      have hne : s ≠ "" := ne_empty_of_pyStrip_ne_nil hstrip
      have hfst : (fallbackTranslate prov ts s cfg.sourceLang cfg.targetLang).1 =
          .str s := by
        simp [fallbackTranslate_error prov ts s cfg.sourceLang cfg.targetLang herr]
      have hsnd : (fallbackTranslate prov ts s cfg.sourceLang cfg.targetLang).2.2 =
          (_translate prov ts s cfg.sourceLang cfg.targetLang).2.2 :=
        congrArg Prod.snd
          (fallbackTranslate_state prov ts s cfg.sourceLang cfg.targetLang)
      split at he
      · rename_i h2
        rw [hfst] at h2
        cases h2
      · rename_i tr2 h2
        rw [hfst] at h2
        cases h2
        by_cases hrect : b.rectFails = true
        · rw [if_pos hrect] at he
          simp only [List.mem_cons] at he
          rcases he with rfl | he
          · simp [Ev.placedText] at hpt
          · rw [hsnd, List.mem_append] at he
            rcases he with he | he
            · rw [(translate_events_obs prov ts s cfg.sourceLang
                cfg.targetLang e he).2] at hpt
              cases hpt
            · simp only [List.mem_singleton] at he
              subst he
              simp [Ev.placedText] at hpt
        · rw [if_neg hrect] at he
          simp only [List.append_assoc, List.cons_append, List.mem_cons,
            List.mem_append, List.mem_singleton, List.not_mem_nil, or_false,
            false_or] at he
          rcases he with rfl | he | rfl | he
          · simp [Ev.placedText] at hpt
          · rw [hsnd] at he
            rw [(translate_events_obs prov ts s cfg.sourceLang
              cfg.targetLang e he).2] at hpt
            cases hpt
          · simp [Ev.placedText] at hpt
          · have hts : t = s := (placeText_events cfg ocg pno b s e he).2 t hpt
            exact ⟨hts, by rw [hts]; exact hne⟩

theorem translation_failure_draws_original_witness :
    ("hola" : String) = "hola" ∧ ("hola" : String) ≠ "" :=
  translation_failure_draws_original provDown cfgHtml 0 0 blkPlain tsEmpty "hola"
    (by decide) (by decide)
    (Ev.htmlTry 0 ⟨0, 0, 100, 20⟩ "hola" true) (by decide) "hola" (by decide)

/-- C3 counterexample: with a provider that raises on every call (e.g. a
rate-limited network), two successive calls of the memoized function with
the identical triple each invoke the provider — `st.cache_data` does not
cache exceptions, so the failed first call stores nothing, the second call
is not served from any cache, and the provider is invoked twice for one
triple within one run. -/
theorem memoized_translate_retries_failures :
    (_translate provDown
        (_translate provDown tsEmpty "hola" "auto" "es").2.1
        "hola" "auto" "es").2.1.provCalls = 2 ∧
    (_translate provDown
        (_translate provDown tsEmpty "hola" "auto" "es").2.1
        "hola" "auto" "es").2.2 = [.provCall "hola" "auto" "es"] := by
  decide

/-- C3 (amended): for every triple whose translation succeeds the provider
is invoked at most once — once a memoized call has returned a value, a
second call with the identical triple returns the cached value with no new
provider call and no state change; and, whenever every cached entry agrees
with the provider, the memoized function is extensionally equal to the
unmemoized translation.  (A triple whose translation raises is not cached,
so a later identical call invokes the provider again.) -/
theorem memoized_translate_refines
    (prov : String → String → String → Except Unit PyText)
    (ts : TransState) (t s g : String)
    (hok : cacheOK prov ts) :
    (_translate prov ts t s g).1 = translateDirect prov t s g ∧
    cacheOK prov (_translate prov ts t s g).2.1 ∧
    ∀ v, (_translate prov ts t s g).1 = .ok v →
      _translate prov (_translate prov ts t s g).2.1 t s g =
        (.ok v, (_translate prov ts t s g).2.1, []) := by
  cases hl : lookupKey (t, s, g) ts.cache with
  | some v =>
    have hv : prov t (normSrc s) g = .ok v := hok (t, s, g) v (lookupKey_mem hl)
    rw [translate_hit prov ts t s g v hl]
    refine ⟨hv.symm, hok, ?_⟩
    intro w hw
    have hwv : w = v := by
      have : Except.ok (ε := Unit) v = .ok w := hw
      cases this
      rfl
    subst hwv
    exact translate_hit prov ts t s g w hl
  | none =>
    cases hp : prov t (normSrc s) g with
    | ok v =>
      rw [translate_miss_ok prov ts t s g v hl hp]
      refine ⟨hp.symm, ?_, ?_⟩
      · intro k w hk
        rcases List.mem_cons.mp hk with hk1 | hk1
        · have hks : k = (t, s, g) ∧ w = v :=
            ⟨congrArg Prod.fst hk1, congrArg Prod.snd hk1⟩
          rcases hks with ⟨rfl, rfl⟩
          exact hp
        · exact hok k w hk1
      · intro w hw
        have hwv : w = v := by
          have : Except.ok (ε := Unit) v = .ok w := hw
          cases this
          rfl
        subst hwv
        refine translate_hit prov _ t s g w ?_
        show lookupKey (t, s, g) (((t, s, g), w) :: ts.cache) = some w
        unfold lookupKey
        rw [if_pos rfl]
    | error e =>
      cases e
      rw [translate_miss_err prov ts t s g hl hp]
      refine ⟨hp.symm, ?_, ?_⟩
      · intro k w hk
        exact hok k w hk
      · intro w hw
        exact absurd hw (by simp)

theorem memoized_translate_refines_witness :
    _translate provUp (_translate provUp tsEmpty "hola" "auto" "es").2.1
        "hola" "auto" "es" =
      (.ok (.str "T:hola"),
       (_translate provUp tsEmpty "hola" "auto" "es").2.1, []) :=
  (memoized_translate_refines provUp tsEmpty "hola" "auto" "es"
      (fun _ _ h => absurd h (List.not_mem_nil _))).2.2
    (.str "T:hola") (by decide)

/-- The per-block pipeline when everything up to the cover rectangle
succeeds and the translation result is the string `t`: the rectangle is
drawn and the placement step runs. -/
theorem processBlock_eq_placed
    (prov : String → String → String → Except Unit PyText)
    (cfg : Cfg) (ocg pno : Nat) (b : Block) (ts : TransState) (s t : String)
    (hs : blockText b = .str s)
    (hstrip : pyStrip s ≠ [])
    (ht : (fallbackTranslate prov ts s cfg.sourceLang cfg.targetLang).1 = .str t)
    (hrect : b.rectFails = false) :
    processBlock prov cfg ocg pno b ts =
      (Ov.rect b.bbox ocg :: (placeText cfg ocg pno b t).1,
       (fallbackTranslate prov ts s cfg.sourceLang cfg.targetLang).2.1,
       Ev.transCall pno s cfg.sourceLang cfg.targetLang ::
         ((fallbackTranslate prov ts s cfg.sourceLang cfg.targetLang).2.2 ++
          [.rectTry pno b.bbox true] ++ (placeText cfg ocg pno b t).2)) := by
  unfold processBlock
  split
  · rename_i heq
    rw [hs] at heq
    cases heq
  · rename_i text heq
    rw [hs] at heq
    cases heq
    rw [if_neg hstrip]
    split
    · rename_i h2
      rw [ht] at h2
      cases h2
    · rename_i tr2 h2
      rw [ht] at h2
      cases h2
      rw [if_neg (by rw [hrect]; exact Bool.false_ne_true)]

/-- C6: when the styled-markup placement raises for a block (primary html
mode), that same block is retried exactly once through the plain text-box
path: the trace records the failed `insert_htmlbox` followed by exactly
one `insert_textbox` attempt, whose outcome is the only thing the retry
can change; if both placement attempts fail the block ends with just the
white cover rectangle and no replacement text, and the block loop
continues with the remaining blocks (lines 103-148). -/
theorem styled_failure_retried_once_via_textbox
    (prov : String → String → String → Except Unit PyText)
    (cfg : Cfg) (ocg pno : Nat) (b : Block) (ts : TransState)
    (s t : String) (rest : List Block)
    (hmode : cfg.useTextbox = false)
    (hs : blockText b = .str s)
    (hstrip : pyStrip s ≠ [])
    (ht : (fallbackTranslate prov ts s cfg.sourceLang cfg.targetLang).1 = .str t)
    (hrect : b.rectFails = false)
    (hhtml : b.htmlFails = true) :
    (processBlock prov cfg ocg pno b ts).2.2 =
      Ev.transCall pno s cfg.sourceLang cfg.targetLang ::
        ((fallbackTranslate prov ts s cfg.sourceLang cfg.targetLang).2.2 ++
         [.rectTry pno b.bbox true] ++
         [.htmlTry pno b.bbox t false, .tboxTry pno b.bbox t (!b.tb2Fails)]) ∧
    (b.tb2Fails = true →
      (processBlock prov cfg ocg pno b ts).1 = [Ov.rect b.bbox ocg]) ∧
    processBlocks prov cfg ocg pno (b :: rest) ts =
      ((processBlock prov cfg ocg pno b ts).1 ++
         (processBlocks prov cfg ocg pno rest
           (processBlock prov cfg ocg pno b ts).2.1).1,
       (processBlocks prov cfg ocg pno rest
         (processBlock prov cfg ocg pno b ts).2.1).2.1,
       (processBlock prov cfg ocg pno b ts).2.2 ++
         (processBlocks prov cfg ocg pno rest
           (processBlock prov cfg ocg pno b ts).2.1).2.2) := by
  have hb := processBlock_eq_placed prov cfg ocg pno b ts s t hs hstrip ht hrect
  have hpl : (placeText cfg ocg pno b t).2 =
      [.htmlTry pno b.bbox t false, .tboxTry pno b.bbox t (!b.tb2Fails)] ∧
      (b.tb2Fails = true → (placeText cfg ocg pno b t).1 = []) := by
    unfold placeText
    rw [hmode]
    simp only [Bool.false_eq_true, if_false]
    rw [if_pos hhtml]
    cases htb : b.tb2Fails with
    | true => simp
    | false => simp
  refine ⟨?_, ?_, ?_⟩
  · rw [hb, hpl.1]
  · intro htb
    rw [hb, hpl.2 htb]
  · rw [processBlocks]

theorem styled_failure_retried_once_via_textbox_witness :
    (processBlock provUp cfgHtml 0 0 blkBothFail tsEmpty).1 =
      [Ov.rect ⟨0, 0, 100, 20⟩ 0] :=
  (styled_failure_retried_once_via_textbox provUp cfgHtml 0 0 blkBothFail
      tsEmpty "hola" "T:hola" [] rfl (by decide) (by decide) (by decide)
      (by decide) (by decide)).2.1 (by decide)

/-- C4: every run preserves the page count; whatever the document exports
is exactly the final in-memory document; and every page whose index lies
outside the resolved inclusive range is returned bit-identical to the
input page, with no event of the run (no draw attempt, no translation
call) attributed to it (lines 62-79). -/
theorem pages_outside_range_untouched
    (prov : String → String → String → Except Unit PyText)
    (cfg : Cfg) (startPage endPage : Nat) (ts0 : TransState) (doc : Doc) :
    (runPipeline prov cfg startPage endPage ts0 doc).finalDoc.pages.length =
      doc.pages.length ∧
    (∀ d, (runPipeline prov cfg startPage endPage ts0 doc).saved = some d →
      d = (runPipeline prov cfg startPage endPage ts0 doc).finalDoc) ∧
    ∀ i : Nat,
      ((i : Int) < firstIdx startPage ∨
        lastIdx doc.pages.length endPage < (i : Int)) →
      (runPipeline prov cfg startPage endPage ts0 doc).finalDoc.pages[i]? =
        doc.pages[i]? ∧
      ∀ e ∈ (runPipeline prov cfg startPage endPage ts0 doc).events,
        Ev.pageOf e ≠ some i := by
  unfold runPipeline
  split_ifs with h1 h2
  · refine ⟨rfl, ?_, ?_⟩
    · intro d hd
      cases hd
    · intro i _
      refine ⟨rfl, ?_⟩
      intro e he
      cases he
  · refine ⟨processPages_length prov cfg doc.ocgs.length _ _ doc.pages 0 ts0,
      ?_, ?_⟩
    · intro d hd
      cases hd
    · intro i hi
      have h0fi : 0 ≤ firstIdx startPage := le_max_left 0 _
      have hfl : firstIdx startPage ≤ lastIdx doc.pages.length endPage :=
        not_lt.mp h1
      have e1 : ((firstIdx startPage).toNat : Int) = firstIdx startPage :=
        Int.toNat_of_nonneg h0fi
      have e2 : ((lastIdx doc.pages.length endPage).toNat : Int) =
          lastIdx doc.pages.length endPage :=
        Int.toNat_of_nonneg (le_trans h0fi hfl)
      constructor
      · exact processPages_get_out prov cfg doc.ocgs.length _ _ doc.pages 0 ts0
          i (by omega)
      · intro e he hpe
        have := processPages_events prov cfg doc.ocgs.length _ _ doc.pages 0 ts0
          e he i hpe
        omega
  · refine ⟨processPages_length prov cfg doc.ocgs.length _ _ doc.pages 0 ts0,
      ?_, ?_⟩
    · intro d hd
      cases hd
      rfl
    · intro i hi
      have h0fi : 0 ≤ firstIdx startPage := le_max_left 0 _
      have hfl : firstIdx startPage ≤ lastIdx doc.pages.length endPage :=
        not_lt.mp h1
      have e1 : ((firstIdx startPage).toNat : Int) = firstIdx startPage :=
        Int.toNat_of_nonneg h0fi
      have e2 : ((lastIdx doc.pages.length endPage).toNat : Int) =
          lastIdx doc.pages.length endPage :=
        Int.toNat_of_nonneg (le_trans h0fi hfl)
      constructor
      · exact processPages_get_out prov cfg doc.ocgs.length _ _ doc.pages 0 ts0
          i (by omega)
      · intro e he hpe
        have := processPages_events prov cfg doc.ocgs.length _ _ doc.pages 0 ts0
          e he i hpe
        omega

theorem pages_outside_range_untouched_witness :
    (runPipeline provUp cfgHtml 2 2 tsEmpty docThree).finalDoc.pages[0]? =
      docThree.pages[0]? :=
  ((pages_outside_range_untouched provUp cfgHtml 2 2 tsEmpty docThree).2.2 0
    (by decide)).1

/-- C8: a run that passes validation creates exactly one overlay layer
(one entry appended to the document's optional-content groups, its index
reported back), every overlay element drawn on any page during the run is
tagged with that one layer, and no page's original content or extraction
behaviour is altered — originals are only covered (lines 72, 103-148). -/
theorem overlays_tagged_with_single_layer
    (prov : String → String → String → Except Unit PyText)
    (cfg : Cfg) (startPage endPage : Nat) (ts0 : TransState) (doc : Doc)
    (hfresh : ∀ pg ∈ doc.pages, pg.overlays = [])
    (hok : (runPipeline prov cfg startPage endPage ts0 doc).errorShown = false) :
    (runPipeline prov cfg startPage endPage ts0 doc).ocgCreated =
      some doc.ocgs.length ∧
    (runPipeline prov cfg startPage endPage ts0 doc).finalDoc.ocgs =
      doc.ocgs ++ ["Translated(" ++ cfg.targetLang ++ ")"] ∧
    (∀ pg ∈ (runPipeline prov cfg startPage endPage ts0 doc).finalDoc.pages,
      ∀ ov ∈ pg.overlays, Ov.ocOf ov = doc.ocgs.length) ∧
    ∀ i : Nat,
      ((runPipeline prov cfg startPage endPage ts0 doc).finalDoc.pages[i]?).map
          Page.content = (doc.pages[i]?).map Page.content ∧
      ((runPipeline prov cfg startPage endPage ts0 doc).finalDoc.pages[i]?).map
          Page.getTextResult = (doc.pages[i]?).map Page.getTextResult := by
  unfold runPipeline at hok ⊢
  split_ifs at hok ⊢ with h1 h2
  · refine ⟨rfl, rfl, ?_, ?_⟩
    · intro pg hpg ov hov
      rcases processPages_mem prov cfg doc.ocgs.length _ _ doc.pages 0 ts0 pg
        hpg with ⟨pg0, hpg0, nw, hnw, hall⟩
      rw [hnw, hfresh pg0 hpg0, List.nil_append] at hov
      exact hall ov hov
    · intro i
      exact processPages_content prov cfg doc.ocgs.length _ _ doc.pages 0 ts0 i
  · refine ⟨rfl, rfl, ?_, ?_⟩
    · intro pg hpg ov hov
      rcases processPages_mem prov cfg doc.ocgs.length _ _ doc.pages 0 ts0 pg
        hpg with ⟨pg0, hpg0, nw, hnw, hall⟩
      rw [hnw, hfresh pg0 hpg0, List.nil_append] at hov
      exact hall ov hov
    · intro i
      exact processPages_content prov cfg doc.ocgs.length _ _ doc.pages 0 ts0 i

theorem overlays_tagged_with_single_layer_witness :
    (runPipeline provUp cfgHtml 1 0 tsEmpty docOne).ocgCreated =
      some docOne.ocgs.length :=
  (overlays_tagged_with_single_layer provUp cfgHtml 1 0 tsEmpty docOne
    (by decide) (by decide)).1
